import Mathlib

/-!
Verification of the Transformer embedding front-end of the `transvip`
repository (file `fairseq2_011/models/transformer/frontend.py`).

Modelling conventions:
* Python floats are modelled as real numbers (`ℝ`).
* Tensors are modelled as nested lists: a batch of token-index sequences is a
  `List (List ℕ)`, a batch of embedding sequences is a `List (List (List ℝ))`
  (batch × sequence × model_dim), a padding mask is a `List (List Bool)` with
  `true` marking a padding position.
* The external collaborators (the embedding table, position encoder, layer
  norm, dropout from the tensor framework) are modelled as records carrying
  the data the front-end inspects plus an abstract transformation supplied by
  the environment.
* Python `raise ValueError(...)` is modelled with `Except PyError`.
-/

namespace Transvip

/-- A vector of model-dimension size (one embedding). -/
abbrev Vec := List ℝ

/-- A batch of embedded sequences, shape (N, S, M). -/
abbrev Tensor3 := List (List Vec)

/-- A padding mask, shape (N, S); `true` marks a padding position. -/
abbrev PaddingMask := List (List Bool)

/-- The incremental state bag: opaque to the front-end, passed through to the
position encoder unchanged. -/
structure IncrementalStateBag where
  mk ::

/-- An opaque device designator (configuration passthrough). -/
structure Device where
  mk ::

/-- An opaque data-type designator (configuration passthrough). -/
structure DataType where
  mk ::

/-- The token embedding table: external collaborator.  `embedding_dim` is the
attribute the front-end reads; `weight` gives the looked-up vector for a
token index. -/
structure Embedding where
  embedding_dim : ℕ
  weight : ℕ → Vec

/-- Calling the embedding table on a batch of token-index sequences:
per-token table lookup. -/
def Embedding.call (e : Embedding) (seqs : List (List ℕ)) : Tensor3 :=
  seqs.map fun row => row.map e.weight

/-- The position encoder: external collaborator.  `encoding_dim` is the
attribute the front-end checks at construction; `run` is its forward
computation on (embeddings, padding mask, state bag). -/
structure PositionEncoder where
  encoding_dim : ℕ
  run : Tensor3 → Option PaddingMask → Option IncrementalStateBag → Tensor3

/-- A Layer Normalization module: external collaborator, abstract
transformation on the embedding tensor. -/
structure LayerNorm where
  run : Tensor3 → Tensor3

/-- A factory constructing a Layer Normalization module from the model
dimensionality and device/dtype configuration. -/
abbrev LayerNormFactory := ℕ → Option Device → Option DataType → LayerNorm

/-- The Dropout module of the tensor framework: carries its configured
probability and its (stochastic, here abstract) application. -/
structure Dropout where
  p : ℝ
  run : Tensor3 → Tensor3

/-- The ambient tensor framework: supplies the default layer-norm factory
(`create_default_layer_norm`, whose body is outside this excerpt) and the
semantics of a `Dropout(p)` module. -/
structure TorchEnv where
  create_default_layer_norm : LayerNormFactory
  dropout_run : ℝ → Tensor3 → Tensor3

/-- A Python exception value; `valueError` is the invalid-argument kind. -/
inductive PyError where
  | valueError (msg : String)
deriving DecidableEq

/-- Modelled from the spec: `to_padding_mask` from
`fairseq2_011.nn.utils.mask`, a module of this repository that is not part of
the excerpt.  Per the spec, when `seq_lens` is absent no mask is produced;
otherwise the mask has the batch and sequence shape of the embeddings and
marks exactly the positions at or beyond each element's specified length as
padding. -/
def to_padding_mask (embeds : Tensor3) (seq_lens : Option (List ℕ)) :
    Option PaddingMask :=
  match seq_lens with
  | none => none
  | some lens =>
      let S := (embeds.head?.getD []).length
      some (lens.map fun len => (List.range S).map fun j => decide (len ≤ j))

/-- The base-class debug representation (`TransformerFrontend.extra_repr`):
the string `model_dim=<n>`. -/
def base_extra_repr (model_dim : ℕ) : String :=
  "model_dim=" ++ toString model_dim

/-- The `TransformerEmbeddingFrontend` object as assembled by its
constructor. -/
structure TransformerEmbeddingFrontend where
  model_dim : ℕ
  embed : Embedding
  scale : ℝ
  pos_encoder : Option PositionEncoder
  layer_norm : Option LayerNorm
  dropout : Option Dropout

/-- The message of the `ValueError` raised on a dimensionality mismatch
between the position encoder and the embedding table. -/
def mismatch_msg (enc_dim emb_dim : ℕ) : String :=
  "`encoding_dim` of `pos_encoder` and `embedding_dim` of `embed` must be equal, but are "
    ++ toString enc_dim ++ " and " ++ toString emb_dim ++ " instead."

/-- `sub` occurs as a contiguous substring of `s`. -/
def strContains (s sub : String) : Prop :=
  ∃ p q : String, s = p ++ sub ++ q

open Classical in
/-- `TransformerEmbeddingFrontend.__init__`: sets `model_dim` from the
embedding table, computes `scale` (1 when `no_scale`, else √model_dim),
validates the position encoder's dimensionality, and conditionally
instantiates the layer-norm and dropout submodules. -/
noncomputable def TransformerEmbeddingFrontend.init (env : TorchEnv)
    (embed : Embedding) (pos_encoder : Option PositionEncoder)
    (no_scale : Bool) (layer_norm : Bool) (dropout_p : ℝ)
    (layer_norm_fn : Option LayerNormFactory)
    (device : Option Device) (dtype : Option DataType) :
    Except PyError TransformerEmbeddingFrontend :=
  let model_dim := embed.embedding_dim
  let lnf := layer_norm_fn.getD env.create_default_layer_norm
  let scale : ℝ := if no_scale then 1 else Real.sqrt model_dim
  let ln : Option LayerNorm :=
    if layer_norm then some (lnf model_dim device dtype) else none
  let dp : Option Dropout :=
    if dropout_p > 0 then some ⟨dropout_p, env.dropout_run dropout_p⟩ else none
  match pos_encoder with
  | some pe =>
      if pe.encoding_dim ≠ model_dim then
        Except.error (PyError.valueError (mismatch_msg pe.encoding_dim model_dim))
      else
        Except.ok ⟨model_dim, embed, scale, some pe, ln, dp⟩
  | none => Except.ok ⟨model_dim, embed, scale, none, ln, dp⟩

/-- Elementwise multiplication of an embedding tensor by a scalar
(`embeds * self.scale`). -/
def scaleT (c : ℝ) (t : Tensor3) : Tensor3 :=
  t.map fun row => row.map fun v => v.map fun x => x * c

open Classical in
/-- The scaling stage of `forward`: multiply by `scale` unless it equals 1. -/
noncomputable def scale_stage (f : TransformerEmbeddingFrontend) (t : Tensor3) :
    Tensor3 :=
  if f.scale ≠ 1 then scaleT f.scale t else t

/-- The position-encoding stage of `forward`: apply the position encoder when
configured, otherwise leave the tensor unchanged. -/
def pos_stage (f : TransformerEmbeddingFrontend) (mask : Option PaddingMask)
    (bag : Option IncrementalStateBag) (t : Tensor3) : Tensor3 :=
  match f.pos_encoder with
  | some pe => pe.run t mask bag
  | none => t

/-- The layer-normalization stage of `forward`: apply layer norm when
configured, otherwise leave the tensor unchanged. -/
def ln_stage (f : TransformerEmbeddingFrontend) (t : Tensor3) : Tensor3 :=
  match f.layer_norm with
  | some ln => ln.run t
  | none => t

/-- The dropout stage of `forward`: apply dropout when configured, otherwise
leave the tensor unchanged. -/
def drop_stage (f : TransformerEmbeddingFrontend) (t : Tensor3) : Tensor3 :=
  match f.dropout with
  | some d => d.run t
  | none => t

open Classical in
/-- `TransformerEmbeddingFrontend.forward`: embedding lookup, padding-mask
derivation, conditional scaling, then the optional position encoder, layer
norm and dropout, in the order of the source. -/
noncomputable def TransformerEmbeddingFrontend.forward
    (f : TransformerEmbeddingFrontend) (seqs : List (List ℕ))
    (seq_lens : Option (List ℕ)) (state_bag : Option IncrementalStateBag) :
    Tensor3 × Option PaddingMask :=
  let embeds := f.embed.call seqs
  let padding_mask := to_padding_mask embeds seq_lens
  let embeds := if f.scale ≠ 1 then scaleT f.scale embeds else embeds
  let embeds :=
    match f.pos_encoder with
    | some pe => pe.run embeds padding_mask state_bag
    | none => embeds
  let embeds :=
    match f.layer_norm with
    | some ln => ln.run embeds
    | none => embeds
  let embeds :=
    match f.dropout with
    | some d => d.run embeds
    | none => embeds
  (embeds, padding_mask)

open Classical in
/-- A variant of `forward` that multiplies by `scale` unconditionally instead
of skipping the multiplication when `scale = 1`; stated by the spec to be
observationally equal to `forward`. -/
noncomputable def TransformerEmbeddingFrontend.forward_always_scale
    (f : TransformerEmbeddingFrontend) (seqs : List (List ℕ))
    (seq_lens : Option (List ℕ)) (state_bag : Option IncrementalStateBag) :
    Tensor3 × Option PaddingMask :=
  let embeds := f.embed.call seqs
  let padding_mask := to_padding_mask embeds seq_lens
  let embeds := scaleT f.scale embeds
  let embeds :=
    match f.pos_encoder with
    | some pe => pe.run embeds padding_mask state_bag
    | none => embeds
  let embeds :=
    match f.layer_norm with
    | some ln => ln.run embeds
    | none => embeds
  let embeds :=
    match f.dropout with
    | some d => d.run embeds
    | none => embeds
  (embeds, padding_mask)

open Classical in
/-- `TransformerEmbeddingFrontend.extra_repr`: by Python conditional-expression
precedence this returns `base ++ ", no_scale=False"` when `scale ≠ 1` and the
empty string otherwise. -/
noncomputable def TransformerEmbeddingFrontend.extra_repr
    (f : TransformerEmbeddingFrontend) : String :=
  let s := base_extra_repr f.model_dim
  if f.scale ≠ 1 then s ++ ", no_scale=False" else ""

/-- A trivial tensor-framework environment for concrete evaluations. -/
def envW : TorchEnv := ⟨fun _ _ _ => ⟨fun t => t⟩, fun _ t => t⟩

/-- A concrete embedding table with `embedding_dim = 4`. -/
def embedW : Embedding := ⟨4, fun _ => [1, 2, 3, 4]⟩

/-- A concrete position encoder with `encoding_dim = 2` (mismatching
`embedW`). -/
def peW2 : PositionEncoder := ⟨2, fun t _ _ => t⟩

/-- A concrete position encoder with `encoding_dim = 4` (matching
`embedW`). -/
def peW4 : PositionEncoder := ⟨4, fun t _ _ => t⟩

/-- A concrete front-end with `scale = 1` and no optional submodules. -/
def fW1 : TransformerEmbeddingFrontend := ⟨4, embedW, 1, none, none, none⟩

/-- A concrete front-end with `scale = 2 ≠ 1` and no optional submodules. -/
def fW2 : TransformerEmbeddingFrontend := ⟨3, embedW, 2, none, none, none⟩

/-- The concrete front-end produced by constructing from `embedW` with
`no_scale = false` and no optional submodules: `scale = √4`. -/
noncomputable def fWs : TransformerEmbeddingFrontend :=
  ⟨4, embedW, Real.sqrt 4, none, none, none⟩

theorem scaleT_one (t : Tensor3) : scaleT 1 t = t := by
  simp [scaleT]

theorem not_strContains_empty (sub : String) (h : sub.length ≠ 0) :
    ¬ strContains "" sub := by
  rintro ⟨p, q, hpq⟩
  apply h
  have hlen := congrArg String.length hpq
  simp [String.length_append] at hlen
  omega

theorem mismatch_msg_contains_dims (a b : ℕ) :
    strContains (mismatch_msg a b) (toString a) ∧
    strContains (mismatch_msg a b) (toString b) := by
  constructor
  · refine ⟨"`encoding_dim` of `pos_encoder` and `embedding_dim` of `embed` must be equal, but are ",
      " and " ++ toString b ++ " instead.", ?_⟩
    simp [mismatch_msg, String.append_assoc]
  · refine ⟨"`encoding_dim` of `pos_encoder` and `embedding_dim` of `embed` must be equal, but are "
      ++ toString a ++ " and ", " instead.", ?_⟩
    simp [mismatch_msg, String.append_assoc]

theorem to_padding_mask_some_spec (embeds : Tensor3) (lens : List ℕ) :
    ∃ m, to_padding_mask embeds (some lens) = some m ∧
      m.length = lens.length ∧
      ∀ i, i < lens.length → ∀ j, j < (embeds.head?.getD []).length →
        ((m.getD i []).getD j false = true ↔ lens.getD i 0 ≤ j) := by
  refine ⟨(lens.map fun len =>
      (List.range (embeds.head?.getD []).length).map fun j => decide (len ≤ j)),
    rfl, by simp, ?_⟩
  intro i hi j hj
  have hrow : ((lens.map fun len =>
      (List.range (embeds.head?.getD []).length).map fun j => decide (len ≤ j)).getD i []) =
      (List.range (embeds.head?.getD []).length).map fun j => decide (lens[i] ≤ j) := by
    rw [List.getD_eq_getElem _ _ (by simpa using hi), List.getElem_map]
  have hcell : ((List.range (embeds.head?.getD []).length).map
      (fun j => decide (lens[i] ≤ j))).getD j false = decide (lens[i] ≤ j) := by
    rw [List.getD_eq_getElem _ _ (by simpa using hj), List.getElem_map]
    simp
  rw [hrow, hcell, List.getD_eq_getElem _ _ hi]
  simp

/-- C1: constructing a `TransformerEmbeddingFrontend` with a position encoder
whose `encoding_dim` differs from the embedding table's `embedding_dim` fails
with a `ValueError` whose message reports both dimensionalities; when the
dimensionalities agree, or no position encoder is given, construction
succeeds. -/
theorem init_pos_encoder_dim_check (env : TorchEnv) (embed : Embedding)
    (pos_encoder : Option PositionEncoder) (no_scale layer_norm : Bool)
    (dropout_p : ℝ) (lnf : Option LayerNormFactory) (dev : Option Device)
    (dt : Option DataType) :
    (∀ pe, pos_encoder = some pe → pe.encoding_dim ≠ embed.embedding_dim →
      TransformerEmbeddingFrontend.init env embed pos_encoder no_scale
          layer_norm dropout_p lnf dev dt =
        Except.error (PyError.valueError
          (mismatch_msg pe.encoding_dim embed.embedding_dim)) ∧
      strContains (mismatch_msg pe.encoding_dim embed.embedding_dim)
        (toString pe.encoding_dim) ∧
      strContains (mismatch_msg pe.encoding_dim embed.embedding_dim)
        (toString embed.embedding_dim)) ∧
    (∀ pe, pos_encoder = some pe → pe.encoding_dim = embed.embedding_dim →
      ∃ f, TransformerEmbeddingFrontend.init env embed pos_encoder no_scale
          layer_norm dropout_p lnf dev dt = Except.ok f) ∧
    (pos_encoder = none →
      ∃ f, TransformerEmbeddingFrontend.init env embed pos_encoder no_scale
          layer_norm dropout_p lnf dev dt = Except.ok f) := by
  refine ⟨?_, ?_, ?_⟩
  · rintro pe rfl hne
    refine ⟨?_, mismatch_msg_contains_dims _ _⟩
    simp only [TransformerEmbeddingFrontend.init]
    rw [if_pos hne]
  · rintro pe rfl heq
    simp only [TransformerEmbeddingFrontend.init]
    rw [if_neg (fun h => h heq)]
    exact ⟨_, rfl⟩
  · rintro rfl
    exact ⟨_, rfl⟩

/-- C1 witness: at `embedW` (dimensionality 4), a position encoder of
dimensionality 2 makes construction fail with the mismatch message, while a
matching encoder or no encoder yields success. -/
theorem init_pos_encoder_dim_check_w :
    TransformerEmbeddingFrontend.init envW embedW (some peW2) false false
        (1/10) none none none =
      Except.error (PyError.valueError (mismatch_msg 2 4)) ∧
    strContains (mismatch_msg 2 4) "2" ∧
    strContains (mismatch_msg 2 4) "4" ∧
    (∃ f, TransformerEmbeddingFrontend.init envW embedW (some peW4) false false
        (1/10) none none none = Except.ok f) ∧
    (∃ f, TransformerEmbeddingFrontend.init envW embedW none false false
        (1/10) none none none = Except.ok f) := by
  obtain ⟨he, hc2, hc4⟩ :=
    (init_pos_encoder_dim_check envW embedW (some peW2) false false
      (1/10) none none none).1 peW2 rfl (by decide)
  exact ⟨he, hc2, hc4,
    (init_pos_encoder_dim_check envW embedW (some peW4) false false
      (1/10) none none none).2.1 peW4 rfl (by decide),
    (init_pos_encoder_dim_check envW embedW none false false
      (1/10) none none none).2.2 rfl⟩

/-- C2: `forward` is exactly the pipeline embedding lookup → padding-mask
derivation → scaling stage → position-encoder stage → layer-norm stage →
dropout stage, in this order, and each omitted optional stage (and the
scaling stage when `scale = 1`) leaves the tensor unchanged. -/
theorem forward_stage_order (f : TransformerEmbeddingFrontend)
    (seqs : List (List ℕ)) (seq_lens : Option (List ℕ))
    (bag : Option IncrementalStateBag) :
    f.forward seqs seq_lens bag =
      (drop_stage f (ln_stage f (pos_stage f
          (to_padding_mask (f.embed.call seqs) seq_lens) bag
          (scale_stage f (f.embed.call seqs)))),
        to_padding_mask (f.embed.call seqs) seq_lens) ∧
    (f.scale = 1 → ∀ t, scale_stage f t = t) ∧
    (f.pos_encoder = none → ∀ mask b t, pos_stage f mask b t = t) ∧
    (f.layer_norm = none → ∀ t, ln_stage f t = t) ∧
    (f.dropout = none → ∀ t, drop_stage f t = t) := by
  refine ⟨rfl, ?_, ?_, ?_, ?_⟩
  · intro h t
    simp [scale_stage, h]
  · intro h mask b t
    simp [pos_stage, h]
  · intro h t
    simp [ln_stage, h]
  · intro h t
    simp [drop_stage, h]

/-- C2 witness: the pipeline equation at a concrete front-end and input, and
each omitted stage evaluated as a no-op on a concrete tensor. -/
theorem forward_stage_order_w :
    fW1.forward [[0]] none none =
      (drop_stage fW1 (ln_stage fW1 (pos_stage fW1 none none
          (scale_stage fW1 (fW1.embed.call [[0]])))), none) ∧
    scale_stage fW1 [[[5]]] = [[[5]]] ∧
    pos_stage fW1 none none [[[5]]] = [[[5]]] ∧
    ln_stage fW1 [[[5]]] = [[[5]]] ∧
    drop_stage fW1 [[[5]]] = [[[5]]] := by
  obtain ⟨h1, h2, h3, h4, h5⟩ := forward_stage_order fW1 [[0]] none none
  exact ⟨h1, h2 rfl [[[5]]], h3 rfl none none [[[5]]], h4 rfl [[[5]]],
    h5 rfl [[[5]]]⟩

/-- C3: for a front-end constructed with `no_scale = true`, no position
encoder, `layer_norm = false` and `dropout_p = 0`, the embeddings returned by
`forward` are exactly the raw embedding-table lookups. -/
theorem forward_no_scale_raw_lookup (env : TorchEnv) (embed : Embedding)
    (lnf : Option LayerNormFactory) (dev : Option Device)
    (dt : Option DataType) (f : TransformerEmbeddingFrontend)
    (h : TransformerEmbeddingFrontend.init env embed none true false 0
        lnf dev dt = Except.ok f)
    (seqs : List (List ℕ)) (seq_lens : Option (List ℕ))
    (bag : Option IncrementalStateBag) :
    (f.forward seqs seq_lens bag).1 = embed.call seqs := by
  have hf : f = ⟨embed.embedding_dim, embed, 1, none, none, none⟩ := by
    norm_num [TransformerEmbeddingFrontend.init] at h
    exact h.symm
  subst hf
  simp [TransformerEmbeddingFrontend.forward]

/-- C3 witness: the trivial `no_scale` construction from `embedW` yields
`fW1`, whose forward output is the raw lookup on a concrete batch. -/
theorem forward_no_scale_raw_lookup_w :
    TransformerEmbeddingFrontend.init envW embedW none true false 0
        none none none = Except.ok fW1 ∧
    (fW1.forward [[7], [8]] none none).1 = embedW.call [[7], [8]] := by
  have hinit : TransformerEmbeddingFrontend.init envW embedW none true false 0
      none none none = Except.ok fW1 := by
    norm_num [TransformerEmbeddingFrontend.init, fW1, embedW]
  exact ⟨hinit,
    forward_no_scale_raw_lookup envW embedW none none none fW1 hinit
      [[7], [8]] none none⟩

/-- C4: for a front-end constructed with `no_scale = false`, no position
encoder, `layer_norm = false` and `dropout_p = 0`, `scale` is √model_dim and
the embeddings returned by `forward` are the raw lookups multiplied
elementwise by √model_dim. -/
theorem forward_scale_sqrt_model_dim (env : TorchEnv) (embed : Embedding)
    (lnf : Option LayerNormFactory) (dev : Option Device)
    (dt : Option DataType) (f : TransformerEmbeddingFrontend)
    (h : TransformerEmbeddingFrontend.init env embed none false false 0
        lnf dev dt = Except.ok f) :
    f.scale = Real.sqrt embed.embedding_dim ∧
    ∀ seqs seq_lens bag,
      (f.forward seqs seq_lens bag).1 =
        scaleT (Real.sqrt embed.embedding_dim) (embed.call seqs) := by
  have hf : f = ⟨embed.embedding_dim, embed,
      Real.sqrt embed.embedding_dim, none, none, none⟩ := by
    norm_num [TransformerEmbeddingFrontend.init] at h
    exact h.symm
  subst hf
  refine ⟨rfl, ?_⟩
  intro seqs seq_lens bag
  by_cases hs : Real.sqrt embed.embedding_dim = 1
  · simp [TransformerEmbeddingFrontend.forward, hs, scaleT_one]
  · simp [TransformerEmbeddingFrontend.forward, hs]

/-- C4 witness: constructing from `embedW` (dimensionality 4) with scaling
enabled yields `fWs` with `scale = √4`, and its forward output on a concrete
batch is the lookup scaled by `√4`. -/
theorem forward_scale_sqrt_model_dim_w :
    TransformerEmbeddingFrontend.init envW embedW none false false 0
        none none none = Except.ok fWs ∧
    fWs.scale = Real.sqrt embedW.embedding_dim ∧
    (fWs.forward [[7]] none none).1 =
      scaleT (Real.sqrt embedW.embedding_dim) (embedW.call [[7]]) := by
  have hinit : TransformerEmbeddingFrontend.init envW embedW none false false 0
      none none none = Except.ok fWs := by
    norm_num [TransformerEmbeddingFrontend.init, fWs, embedW]
  have h := forward_scale_sqrt_model_dim envW embedW none none none fWs hinit
  exact ⟨hinit, h.1, h.2 [[7]] none none⟩

/-- C5: when `seq_lens` is omitted, the padding mask returned by `forward` is
absent, for every front-end and input. -/
theorem forward_mask_none_when_seq_lens_none (f : TransformerEmbeddingFrontend)
    (seqs : List (List ℕ)) (bag : Option IncrementalStateBag) :
    (f.forward seqs none bag).2 = none := rfl

/-- C6: when `seq_lens` is supplied and at least one batch element is shorter
than the sequence dimension, `forward` returns a padding mask that marks a
position as padding exactly when it lies at or beyond the element's specified
length. -/
theorem forward_mask_marks_exact_padding (f : TransformerEmbeddingFrontend)
    (seqs : List (List ℕ)) (lens : List ℕ) (bag : Option IncrementalStateBag)
    (S : ℕ) (hS : S = ((f.embed.call seqs).head?.getD []).length)
    (hshort : ∃ i, i < lens.length ∧ lens.getD i 0 < S) :
    ∃ m, (f.forward seqs (some lens) bag).2 = some m ∧
      m.length = lens.length ∧
      ∀ i, i < lens.length → ∀ j, j < S →
        ((m.getD i []).getD j false = true ↔ lens.getD i 0 ≤ j) := by
  subst hS
  obtain ⟨m, hm, hlen, hcells⟩ :=
    to_padding_mask_some_spec (f.embed.call seqs) lens
  exact ⟨m, hm, hlen, hcells⟩

/-- C6 witness: for a one-element batch of sequence length 3 with specified
length 1, the mask rows mark exactly positions 1 and 2. -/
theorem forward_mask_marks_exact_padding_w :
    ∃ m, (fW1.forward [[0, 0, 0]] (some [1]) none).2 = some m ∧
      m.length = ([1] : List ℕ).length ∧
      ∀ i, i < ([1] : List ℕ).length → ∀ j, j < 3 →
        ((m.getD i []).getD j false = true ↔ ([1] : List ℕ).getD i 0 ≤ j) :=
  forward_mask_marks_exact_padding fW1 [[0, 0, 0]] [1] none 3
    (by simp [fW1, embedW, Embedding.call]) ⟨0, by simp, by simp⟩

/-- C7: when `scale = 1` the multiplication stage of `forward` is skipped
(the embedding tensor reaches the position encoder unscaled), and `forward`
is observationally equal to the variant `forward_always_scale` that always
multiplies by `scale`, on every input. -/
theorem forward_skip_scale_equiv (f : TransformerEmbeddingFrontend)
    (seqs : List (List ℕ)) (seq_lens : Option (List ℕ))
    (bag : Option IncrementalStateBag) :
    (f.scale = 1 → f.forward seqs seq_lens bag =
      (drop_stage f (ln_stage f (pos_stage f
          (to_padding_mask (f.embed.call seqs) seq_lens) bag
          (f.embed.call seqs))),
        to_padding_mask (f.embed.call seqs) seq_lens)) ∧
    f.forward seqs seq_lens bag =
      f.forward_always_scale seqs seq_lens bag := by
  constructor
  · intro h1
    simp [TransformerEmbeddingFrontend.forward, drop_stage, ln_stage,
      pos_stage, h1]
  · by_cases h : f.scale = 1
    · simp [TransformerEmbeddingFrontend.forward,
        TransformerEmbeddingFrontend.forward_always_scale, h, scaleT_one]
    · simp [TransformerEmbeddingFrontend.forward,
        TransformerEmbeddingFrontend.forward_always_scale, h]

/-- C7 witness: at the concrete front-end `fW1` with `scale = 1`, forward
skips the multiplication and agrees with the always-multiplying variant. -/
theorem forward_skip_scale_equiv_w :
    fW1.forward [[0]] none none =
      (drop_stage fW1 (ln_stage fW1 (pos_stage fW1 none none
          (fW1.embed.call [[0]]))), none) ∧
    fW1.forward [[0]] none none = fW1.forward_always_scale [[0]] none none := by
  obtain ⟨h1, h2⟩ := forward_skip_scale_equiv fW1 [[0]] none none
  exact ⟨h1 rfl, h2⟩

/-- C8: `extra_repr` appends the text `", no_scale=False"` to the base
representation exactly when `scale ≠ 1`; when `scale = 1` the result is the
empty string, which contains no such annotation. -/
theorem extra_repr_annot_iff_scaled (f : TransformerEmbeddingFrontend) :
    (f.scale ≠ 1 →
      f.extra_repr = base_extra_repr f.model_dim ++ ", no_scale=False") ∧
    (f.scale = 1 → f.extra_repr = "" ∧
      ¬ strContains f.extra_repr ", no_scale=False") := by
  constructor
  · intro h
    simp [TransformerEmbeddingFrontend.extra_repr, h]
  · intro h
    have he : f.extra_repr = "" := by
      simp [TransformerEmbeddingFrontend.extra_repr, h]
    refine ⟨he, ?_⟩
    rw [he]
    exact not_strContains_empty _ (by decide)

/-- C8 witness: `fW2` (scale 2) reports
`"model_dim=3, no_scale=False"`, while `fW1` (scale 1) reports the empty
string without the annotation. -/
theorem extra_repr_annot_iff_scaled_w :
    fW2.extra_repr = "model_dim=3, no_scale=False" ∧
    fW1.extra_repr = "" ∧
    ¬ strContains fW1.extra_repr ", no_scale=False" := by
  have h2 := (extra_repr_annot_iff_scaled fW2).1 (by norm_num [fW2])
  have h1 := (extra_repr_annot_iff_scaled fW1).2 rfl
  exact ⟨h2.trans (by decide), h1.1, h1.2⟩

/-- C9: when `scale = 1`, `extra_repr` is the empty string and in particular
omits the base `model_dim=...` representation; the base representation occurs
in the output exactly when `scale ≠ 1`. -/
theorem extra_repr_omits_base_when_scale_one (f : TransformerEmbeddingFrontend) :
    (f.scale = 1 → f.extra_repr = "" ∧
      ¬ strContains f.extra_repr (base_extra_repr f.model_dim)) ∧
    (f.scale ≠ 1 → strContains f.extra_repr (base_extra_repr f.model_dim)) := by
  constructor
  · intro h
    have he : f.extra_repr = "" := by
      simp [TransformerEmbeddingFrontend.extra_repr, h]
    refine ⟨he, ?_⟩
    rw [he]
    apply not_strContains_empty
    have : (base_extra_repr f.model_dim).length =
        ("model_dim=" : String).length + (toString f.model_dim).length :=
      String.length_append _ _
    simp only [this]
    have h10 : ("model_dim=" : String).length = 10 := by decide
    omega
  · intro h
    refine ⟨"", ", no_scale=False", ?_⟩
    simp [TransformerEmbeddingFrontend.extra_repr, h]

/-- C9 witness: `fW1` (scale 1) has empty `extra_repr` not containing its
base representation, while `fW2` (scale 2) contains it. -/
theorem extra_repr_omits_base_when_scale_one_w :
    fW1.extra_repr = "" ∧
    ¬ strContains fW1.extra_repr (base_extra_repr fW1.model_dim) ∧
    strContains fW2.extra_repr (base_extra_repr fW2.model_dim) := by
  have h1 := (extra_repr_omits_base_when_scale_one fW1).1 rfl
  have h2 := (extra_repr_omits_base_when_scale_one fW2).2 (by norm_num [fW2])
  exact ⟨h1.1, h1.2, h2⟩

/-- C10: for every `dropout_p ≤ 0` (negative values included), construction
succeeds — provided the position encoder, if any, matches dimensionality —
with the dropout submodule wholly omitted, and the constructed value is
identical to the one built with `dropout_p = 0`. -/
theorem init_nonpos_dropout_p (env : TorchEnv) (embed : Embedding)
    (pos_encoder : Option PositionEncoder) (no_scale layer_norm : Bool)
    (lnf : Option LayerNormFactory) (dev : Option Device)
    (dt : Option DataType)
    (hpe : ∀ pe, pos_encoder = some pe →
      pe.encoding_dim = embed.embedding_dim)
    (p : ℝ) (hp : p ≤ 0) :
    (∃ f, TransformerEmbeddingFrontend.init env embed pos_encoder no_scale
        layer_norm p lnf dev dt = Except.ok f ∧ f.dropout = none) ∧
    TransformerEmbeddingFrontend.init env embed pos_encoder no_scale
        layer_norm p lnf dev dt =
      TransformerEmbeddingFrontend.init env embed pos_encoder no_scale
        layer_norm 0 lnf dev dt := by
  have hnp : ¬ (p > 0) := not_lt.mpr hp
  cases pos_encoder with
  | none =>
      constructor
      · simp only [TransformerEmbeddingFrontend.init]
        rw [if_neg hnp]
        exact ⟨_, rfl, rfl⟩
      · simp only [TransformerEmbeddingFrontend.init]
        rw [if_neg hnp, if_neg (lt_irrefl (0 : ℝ))]
  | some pe =>
      have hd := hpe pe rfl
      constructor
      · simp only [TransformerEmbeddingFrontend.init]
        rw [if_neg hnp, if_neg (fun h => h hd)]
        exact ⟨_, rfl, rfl⟩
      · simp only [TransformerEmbeddingFrontend.init]
        rw [if_neg hnp, if_neg (lt_irrefl (0 : ℝ))]

/-- C10 witness: with a matching position encoder and `dropout_p = -1`,
construction succeeds with no dropout submodule and equals the
`dropout_p = 0` construction. -/
theorem init_nonpos_dropout_p_w :
    (∃ f, TransformerEmbeddingFrontend.init envW embedW (some peW4) false
        false (-1) none none none = Except.ok f ∧ f.dropout = none) ∧
    TransformerEmbeddingFrontend.init envW embedW (some peW4) false
        false (-1) none none none =
      TransformerEmbeddingFrontend.init envW embedW (some peW4) false
        false 0 none none none :=
  init_nonpos_dropout_p envW embedW (some peW4) false false none none none
    (by rintro pe ⟨⟩; decide) (-1) (by norm_num)

end Transvip
